import Mathlib

/-!
Shallow embedding of the `evm-accounts` pallet
(`src/pallets/evm-accounts/src/lib.rs`): the EIP-712 message builder,
signature recovery, the `claim_account` extrinsic, the `on_killed_account`
lifecycle hook, and the query surface, together with theorems about them.

Bytes are modelled as `List Nat` (each element standing for one octet),
native account identifiers as `Nat`, and the two storage maps as
association lists.  The external collaborators — the keccak hash, the
secp256k1 public-key recovery, SCALE encoding of an account id, the
`OriginAddressMapping` padding scheme, the chain id and the genesis block
hash — are fields of a context record `Ctx`, exactly as the pallet
consumes them through its `Config` trait.
-/

namespace EvmAccounts

/-- A native (Substrate) account identifier, opaque in the pallet. -/
abbrev AccountId := Nat

/-- A 20-byte EVM address, modelled as its list of octets. -/
abbrev EvmAddress := List Nat

/-- Raw bytes. -/
abbrev Bytes := List Nat

/-- ASCII bytes of a string literal (all literals used are ASCII). -/
def strBytes (s : String) : Bytes :=
  s.toList.map Char.toNat

/-- Modelled from the spec: `to_bytes` of `peaq_primitives_xcm` (not under
`src/`) is the big-endian byte encoding of the 64-bit chain id
(`bigEndianBytes(chainId)` in §4.2 of the spec). -/
def u64be (n : Nat) : Bytes :=
  (List.range 8).map (fun i => n / 2 ^ (8 * (7 - i)) % 256)

/-- The external collaborators consumed by the pallet through its `Config`
trait and the runtime interfaces (`sp_io`). -/
structure Ctx where
  /-- `keccak_256` / `keccak256!`: the 32-byte keccak digest of a byte string. -/
  keccak : Bytes → Bytes
  /-- `secp256k1_ecdsa_recover`: 65-byte signature and 32-byte message hash to
  the recovered 64-byte uncompressed public key, `none` on any failure. -/
  secp256k1_ecdsa_recover : Bytes → Bytes → Option Bytes
  /-- `T::ChainId::get()`. -/
  chainId : Nat
  /-- `frame_system::Pallet::<T>::block_hash(0)`: the genesis block hash. -/
  genesisHash : Bytes
  /-- `who.encode()`: SCALE encoding of an account id. -/
  encode : AccountId → Bytes
  /-- `T::OriginAddressMapping::into_account_id`: the host's padding scheme
  embedding an EVM address as a native account id (the shadow account). -/
  into_account_id : EvmAddress → AccountId

/-- Errors of the pallet (`Error<T>`), plus the dispatch error propagated
from `T::Currency::transfer`. -/
inductive ClaimError where
  | AccountIdHasMapped
  | EthAddressHasMapped
  | BadSignature
  | InvalidSignature
  | TransferError
  deriving DecidableEq, Repr

/-- The event deposited by `claim_account`. -/
inductive Event where
  | ClaimAccount (account_id : AccountId) (evm_address : EvmAddress)
  deriving DecidableEq, Repr

/-- Association-list lookup, the model of `StorageMap::get` /
`contains_key`. -/
def lookupA {α β : Type} [DecidableEq α] : List (α × β) → α → Option β
  | [], _ => none
  | (k, v) :: rest, a => if k = a then some v else lookupA rest a

/-- Association-list insert, the model of `StorageMap::insert`. -/
def insertA {α β : Type} [DecidableEq α] (m : List (α × β)) (k : α) (v : β) :
    List (α × β) :=
  (k, v) :: m

/-- Association-list removal, the model of `StorageMap::remove`. -/
def removeA {α β : Type} [DecidableEq α] : List (α × β) → α → List (α × β)
  | [], _ => []
  | (k, v) :: rest, a =>
    if k = a then removeA rest a else (k, v) :: removeA rest a

/-- The external ledger (`T::Currency` together with
`frame_system::account_exists`), consumed as a narrow interface: a balance
per account, an existence flag per account, and an external failure
oracle for transfers (the failure modes of the host ledger are opaque to
the pallet, which only propagates the error). -/
structure Ledger where
  balance : AccountId → Nat
  account_exists : AccountId → Bool
  failTransfer : AccountId → AccountId → Bool

/-- `T::Currency::transfer(src, dst, amt, ExistenceRequirement::AllowDeath)`:
fails exactly when the host ledger reports a failure; a successful
transfer moves `amt` from `src` to `dst` (a self-transfer is a no-op). -/
def Ledger.transfer (l : Ledger) (src dst : AccountId) (amt : Nat) :
    Except ClaimError Ledger :=
  if l.failTransfer src dst then .error .TransferError
  else if src = dst then .ok l
  else if amt ≤ l.balance src then
    .ok { l with
          balance := fun a =>
            if a = src then l.balance src - amt
            else if a = dst then l.balance dst + amt
            else l.balance a }
  else .error .TransferError

/-- The pallet storage (`Accounts` and `EvmAddresses` maps), the external
ledger state, and the deposited event log. -/
structure PalletState where
  Accounts : List (EvmAddress × AccountId)
  EvmAddresses : List (AccountId × EvmAddress)
  ledger : Ledger
  events : List Event

/-- `evm_account_payload_hash`: keccak of the transaction type hash
followed by the keccak of the SCALE-encoded account id. -/
def evm_account_payload_hash (c : Ctx) (who : AccountId) : Bytes :=
  let tx_type_hash := c.keccak (strBytes "Transaction(bytes substrateAddress)")
  let tx_msg := tx_type_hash
  let tx_msg := tx_msg ++ c.keccak (c.encode who)
  c.keccak tx_msg

/-- `evm_account_domain_separator`: the EIP-712 domain separator, rebuilt
from the current chain id and genesis block hash on every call. -/
def evm_account_domain_separator (c : Ctx) : Bytes :=
  let domain_hash :=
    c.keccak (strBytes
      "EIP712Domain(string name,string version,uint256 chainId,bytes32 salt)")
  let msg := domain_hash
  let msg := msg ++ c.keccak (strBytes "Peaq EVM claim")
  let msg := msg ++ c.keccak (strBytes "1")
  let msg := msg ++ u64be c.chainId
  let msg := msg ++ c.genesisHash
  c.keccak msg

/-- `eip712_signable_message`: `\x19\x01` then the domain separator then
the payload hash. -/
def eip712_signable_message (c : Ctx) (who : AccountId) : Bytes :=
  let domain_separator := evm_account_domain_separator c
  let payload_hash := evm_account_payload_hash c who
  let msg := [0x19, 0x01]
  let msg := msg ++ domain_separator
  let msg := msg ++ payload_hash
  msg

/-- `recover_signer`: recover the public key and derive the EVM address as
the low-order 20 bytes of its keccak hash (`H160::from(H256::…)` keeps
bytes 12..32 of the 32-byte digest). -/
def recover_signer (c : Ctx) (sig : Bytes) (msg_hash : Bytes) :
    Option EvmAddress :=
  (c.secp256k1_ecdsa_recover sig msg_hash).map
    (fun pubkey => (c.keccak pubkey).drop 12)

/-- `verify_eip712_signature`: hash the signable message once more and
recover the signer address. -/
def verify_eip712_signature (c : Ctx) (who : AccountId) (sig : Bytes) :
    Option EvmAddress :=
  let msg := eip712_signable_message c who
  let msg_hash := c.keccak msg
  recover_signer c sig msg_hash

/-- Lines 162–167 of `claim_account`: if an account exists under the
shadow identifier `into_account_id eth_address`, move its whole reducible
balance to the claimer; otherwise leave the ledger untouched. -/
def migrate_shadow_balance (c : Ctx) (l : Ledger) (who : AccountId)
    (eth_address : EvmAddress) : Except ClaimError Ledger :=
  let account_id := c.into_account_id eth_address
  if l.account_exists account_id then
    let amount := l.balance account_id
    l.transfer account_id who amount
  else .ok l

/-- `claim_account`: the sole mutating extrinsic.  Returns the post-state
on success; on any error the `#[transactional]` wrapper discards every
intermediate write, which the embedding reflects by returning no state. -/
def claim_account (c : Ctx) (st : PalletState) (who : AccountId)
    (eth_address : EvmAddress) (eth_signature : Bytes) :
    Except ClaimError PalletState :=
  if (lookupA st.EvmAddresses who).isSome then .error .AccountIdHasMapped
  else if (lookupA st.Accounts eth_address).isSome then
    .error .EthAddressHasMapped
  else
    match verify_eip712_signature c who eth_signature with
    | none => .error .BadSignature
    | some address =>
      if eth_address = address then
        match migrate_shadow_balance c st.ledger who eth_address with
        | .error e => .error e
        | .ok l =>
          .ok { Accounts := insertA st.Accounts eth_address who,
                EvmAddresses := insertA st.EvmAddresses who eth_address,
                ledger := l,
                events := st.events ++ [Event.ClaimAccount who eth_address] }
      else .error .InvalidSignature

/-- The observable effect of dispatching `claim_account` under
`#[transactional]`: on success the new state, on error the original state
together with the error. -/
def runClaim (c : Ctx) (st : PalletState) (who : AccountId)
    (eth_address : EvmAddress) (eth_signature : Bytes) :
    PalletState × Option ClaimError :=
  match claim_account c st who eth_address eth_signature with
  | .ok st' => (st', none)
  | .error e => (st, some e)

/-- `CallKillEVMLinkAccount::on_killed_account`: remove both mapping
entries if the dying account has one, otherwise do nothing. -/
def on_killed_account (st : PalletState) (who : AccountId) : PalletState :=
  match lookupA st.EvmAddresses who with
  | some evm_addr =>
    { st with Accounts := removeA st.Accounts evm_addr,
              EvmAddresses := removeA st.EvmAddresses who }
  | none => st

/-- Modelled from the spec: `get_evm_address` delegates to
`AccountIdToEVMAddress::<T>::convert`, whose source (`convert_impl.rs`) is
not under `src/`; per §4.5 `resolveDerivedAddress` "returns the mapped
address if present, else none". -/
def get_evm_address (st : PalletState) (account_id : AccountId) :
    Option EvmAddress :=
  lookupA st.EvmAddresses account_id

/-! ### Spec-side formulations of the message builder (§4.2) -/

/-- §4.2 `payloadHash(nativeId)`, written as the spec writes it:
`hash( hash("Transaction(bytes substrateAddress)") ‖ hash(serialize(nativeId)) )`. -/
def payloadHash_spec (c : Ctx) (who : AccountId) : Bytes :=
  c.keccak (c.keccak (strBytes "Transaction(bytes substrateAddress)") ++
    c.keccak (c.encode who))

/-- §4.2 `domainSeparator()`, written as the spec writes it. -/
def domainSeparator_spec (c : Ctx) : Bytes :=
  c.keccak (c.keccak (strBytes
      "EIP712Domain(string name,string version,uint256 chainId,bytes32 salt)") ++
    c.keccak (strBytes "Peaq EVM claim") ++ c.keccak (strBytes "1") ++
    u64be c.chainId ++ c.genesisHash)

/-- §4.2 `signableMessage(nativeId)`, written as the spec writes it:
`0x19 0x01 ‖ domainSeparator() ‖ payloadHash(nativeId)`. -/
def signableMessage_spec (c : Ctx) (who : AccountId) : Bytes :=
  [0x19, 0x01] ++ domainSeparator_spec c ++ payloadHash_spec c who

/-! ### Association-list lemmas -/

theorem lookupA_insertA {α β : Type} [DecidableEq α] (m : List (α × β))
    (k a : α) (v : β) :
    lookupA (insertA m k v) a = if k = a then some v else lookupA m a :=
  rfl

theorem lookupA_removeA {α β : Type} [DecidableEq α] (m : List (α × β))
    (k a : α) :
    lookupA (removeA m k) a = if a = k then none else lookupA m a := by
  induction m with
  | nil => simp [removeA, lookupA]
  | cons p rest ih =>
    obtain ⟨k1, v1⟩ := p
    by_cases h1 : k1 = k
    · subst h1
      by_cases h2 : a = k1
      · subst h2
        simp [removeA, lookupA, ih]
      · have h3 : ¬k1 = a := fun hh => h2 hh.symm
        simp [removeA, lookupA, h2, h3, ih]
    · by_cases h2 : k1 = a
      · subst h2
        have h3 : ¬k1 = k := h1
        simp [removeA, lookupA, h3, lookupA, h1]
      · simp [removeA, lookupA, h1, h2, ih]

/-! ### Elimination lemma for successful claims -/

/-- A successful `claim_account` call implies both uniqueness checks
passed, the signature verified to the claimed address, the balance
migration succeeded, and the post-state is exactly the two insertions
plus the migrated ledger and the single deposited event. -/
theorem claim_account_ok_elim {c : Ctx} {st : PalletState} {who : AccountId}
    {addr : EvmAddress} {sig : Bytes} {st' : PalletState}
    (h : claim_account c st who addr sig = .ok st') :
    lookupA st.EvmAddresses who = none ∧
    lookupA st.Accounts addr = none ∧
    verify_eip712_signature c who sig = some addr ∧
    ∃ l, migrate_shadow_balance c st.ledger who addr = .ok l ∧
      st' = { Accounts := insertA st.Accounts addr who,
              EvmAddresses := insertA st.EvmAddresses who addr,
              ledger := l,
              events := st.events ++ [Event.ClaimAccount who addr] } := by
  unfold claim_account at h
  split at h
  · cases h
  · rename_i h1
    split at h
    · cases h
    · rename_i h2
      split at h
      · cases h
      · rename_i address hv
        split at h
        · rename_i haddr
          subst haddr
          split at h
          · cases h
          · rename_i l hm
            cases h
            exact ⟨Option.not_isSome_iff_eq_none.mp h1,
              Option.not_isSome_iff_eq_none.mp h2, hv, l, hm, rfl⟩
        · cases h

/-! ### Concrete fixtures for witnesses -/

/-- A concrete stand-in hash for witness evaluation. -/
def wKeccak : Bytes → Bytes := fun _ => List.replicate 32 7

/-- A concrete context whose recovery always yields a public key hashing
to `wAddr`. -/
def wCtx : Ctx :=
  { keccak := wKeccak,
    secp256k1_ecdsa_recover := fun _ _ => some [1],
    chainId := 5,
    genesisHash := List.replicate 32 9,
    encode := fun n => [n % 256],
    into_account_id := fun _ => 2 }

/-- The context `wCtx` with a recovery that always fails. -/
def wCtxBad : Ctx :=
  { wCtx with secp256k1_ecdsa_recover := fun _ _ => none }

/-- The address recovered by `wCtx` from any signature. -/
def wAddr : EvmAddress := List.replicate 20 7

/-- A different 20-byte address, never recovered by `wCtx`. -/
def wAddr2 : EvmAddress := List.replicate 20 8

/-- A ledger holding 100 under the shadow account `2`. -/
def wLedger : Ledger :=
  { balance := fun a => if a = 2 then 100 else 0,
    account_exists := fun a => decide (a = 2),
    failTransfer := fun _ _ => false }

/-- `wLedger` whose transfers all fail. -/
def wLedgerFail : Ledger :=
  { wLedger with failTransfer := fun _ _ => true }

/-- A ledger with no accounts at all. -/
def wLedgerNone : Ledger :=
  { balance := fun _ => 0, account_exists := fun _ => false,
    failTransfer := fun _ _ => false }

/-- Empty mapping store over `wLedger`. -/
def wState : PalletState :=
  { Accounts := [], EvmAddresses := [], ledger := wLedger, events := [] }

/-- Empty mapping store over `wLedgerFail`. -/
def wStateFail : PalletState :=
  { Accounts := [], EvmAddresses := [], ledger := wLedgerFail, events := [] }

/-- Empty mapping store over `wLedgerNone`. -/
def wStateNone : PalletState :=
  { Accounts := [], EvmAddresses := [], ledger := wLedgerNone, events := [] }

/-- A store where account `1` is already mapped to `wAddr`. -/
def wStateMapped : PalletState :=
  { Accounts := [(wAddr, 1)], EvmAddresses := [(1, wAddr)], ledger := wLedger,
    events := [] }

/-- The state produced by claiming `wAddr` for account `1` from
`wStateNone`. -/
def wAfter : PalletState :=
  { Accounts := [(wAddr, 1)], EvmAddresses := [(1, wAddr)],
    ledger := wLedgerNone, events := [Event.ClaimAccount 1 wAddr] }

/-! ### Claim theorems -/

/-- C2: the caller-already-mapped check fires first, for every address,
signature and context (hence before any signature processing); an
unmapped caller claiming an already-mapped address fails with
`EthAddressHasMapped`; either failing attempt leaves the state exactly as
it was. -/
theorem claim_account_uniqueness_checks (c : Ctx) (st : PalletState)
    (who : AccountId) (addr : EvmAddress) (sig : Bytes) :
    ((lookupA st.EvmAddresses who).isSome = true →
      runClaim c st who addr sig = (st, some .AccountIdHasMapped)) ∧
    (lookupA st.EvmAddresses who = none →
      (lookupA st.Accounts addr).isSome = true →
      runClaim c st who addr sig = (st, some .EthAddressHasMapped)) := by
  constructor
  · intro h
    unfold runClaim claim_account
    simp [h]
  · intro h1 h2
    unfold runClaim claim_account
    simp [h1, h2]

/-- Witness for C2: both rejection branches at concrete inputs. -/
theorem claim_account_uniqueness_checks_witness :
    runClaim wCtx wStateMapped 1 wAddr2 [0] =
      (wStateMapped, some .AccountIdHasMapped) ∧
    runClaim wCtx wStateMapped 2 wAddr [0] =
      (wStateMapped, some .EthAddressHasMapped) :=
  ⟨(claim_account_uniqueness_checks wCtx wStateMapped 1 wAddr2 [0]).1
      (by decide),
   (claim_account_uniqueness_checks wCtx wStateMapped 2 wAddr [0]).2
      (by decide) (by decide)⟩

/-- C3: past the uniqueness checks, a failing public-key recovery over the
once-hashed signable message yields `BadSignature`; a successful recovery
whose derived address (low 20 bytes of the hashed public key) differs
from the claimed address yields `InvalidSignature`; both leave the state
untouched. -/
theorem claim_account_signature_errors (c : Ctx) (st : PalletState)
    (who : AccountId) (addr : EvmAddress) (sig : Bytes)
    (h1 : lookupA st.EvmAddresses who = none)
    (h2 : lookupA st.Accounts addr = none) :
    (c.secp256k1_ecdsa_recover sig
        (c.keccak (eip712_signable_message c who)) = none →
      runClaim c st who addr sig = (st, some .BadSignature)) ∧
    (∀ pubkey,
      c.secp256k1_ecdsa_recover sig
          (c.keccak (eip712_signable_message c who)) = some pubkey →
      addr ≠ (c.keccak pubkey).drop 12 →
      runClaim c st who addr sig = (st, some .InvalidSignature)) := by
  constructor
  · intro h
    unfold runClaim claim_account verify_eip712_signature recover_signer
    simp [h1, h2, h]
  · intro pubkey h hne
    unfold runClaim claim_account verify_eip712_signature recover_signer
    simp [h1, h2, h, hne]

/-- Witness for C3: a failing recovery and a mismatching recovered address
at concrete inputs. -/
theorem claim_account_signature_errors_witness :
    runClaim wCtxBad wState 1 wAddr [0] = (wState, some .BadSignature) ∧
    runClaim wCtx wState 1 wAddr2 [0] = (wState, some .InvalidSignature) :=
  ⟨(claim_account_signature_errors wCtxBad wState 1 wAddr [0] (by decide)
      (by decide)).1 (by decide),
   (claim_account_signature_errors wCtx wState 1 wAddr2 [0] (by decide)
      (by decide)).2 [1] (by decide) (by decide)⟩

/-- C4: the message builder produces exactly the bytes the spec
prescribes: `signableMessage = 0x19 0x01 ‖ domainSeparator ‖ payloadHash`
with `payloadHash` and `domainSeparator` as in §4.2; the chain id and
genesis block hash enter the separator from the context on every call
(the definitions read them afresh, nothing is cached). -/
theorem eip712_message_matches_spec (c : Ctx) (who : AccountId) :
    eip712_signable_message c who = signableMessage_spec c who ∧
    evm_account_domain_separator c = domainSeparator_spec c ∧
    evm_account_payload_hash c who = payloadHash_spec c who := by
  refine ⟨?_, ?_, ?_⟩ <;>
    simp [eip712_signable_message, signableMessage_spec,
      evm_account_domain_separator, domainSeparator_spec,
      evm_account_payload_hash, payloadHash_spec, List.append_assoc]

/-- C1: when the balance-migration step fails, `claim_account` returns
exactly the propagated transfer error and, under the `#[transactional]`
dispatch, the observable post-state is the unchanged pre-state — in
particular neither mapping entry is written. -/
theorem claim_account_transfer_error_atomic (c : Ctx) (st : PalletState)
    (who : AccountId) (addr : EvmAddress) (sig : Bytes) (e : ClaimError)
    (h1 : lookupA st.EvmAddresses who = none)
    (h2 : lookupA st.Accounts addr = none)
    (h3 : verify_eip712_signature c who sig = some addr)
    (h4 : migrate_shadow_balance c st.ledger who addr = .error e) :
    runClaim c st who addr sig = (st, some e) := by
  unfold runClaim claim_account
  simp [h1, h2, h3, h4]

/-- Witness for C1: a concrete claim whose shadow-balance transfer fails. -/
theorem claim_account_transfer_error_atomic_witness :
    runClaim wCtx wStateFail 1 wAddr [0] =
      (wStateFail, some .TransferError) :=
  claim_account_transfer_error_atomic wCtx wStateFail 1 wAddr [0]
    .TransferError (by decide) (by decide) (by decide) (by rfl)

/-- C5: for a claim that passes all checks, with the shadow identifier
distinct from the claimer: if an account exists under the shadow
identifier with balance `B` and the host ledger does not fail the
transfer, the claim succeeds, the balance of the claimer grows by exactly `B`
and the balance of the shadow account becomes `0`; if no account exists under
the shadow identifier, the claim succeeds with the ledger untouched (no
transfer is attempted). -/
theorem claim_account_balance_migration (c : Ctx) (st : PalletState)
    (who : AccountId) (addr : EvmAddress) (sig : Bytes)
    (h1 : lookupA st.EvmAddresses who = none)
    (h2 : lookupA st.Accounts addr = none)
    (h3 : verify_eip712_signature c who sig = some addr)
    (hne : c.into_account_id addr ≠ who) :
    (st.ledger.account_exists (c.into_account_id addr) = true →
     st.ledger.failTransfer (c.into_account_id addr) who = false →
     ∃ st', claim_account c st who addr sig = .ok st' ∧
       st'.ledger.balance who =
         st.ledger.balance who +
           st.ledger.balance (c.into_account_id addr) ∧
       st'.ledger.balance (c.into_account_id addr) = 0) ∧
    (st.ledger.account_exists (c.into_account_id addr) = false →
     ∃ st', claim_account c st who addr sig = .ok st' ∧
       st'.ledger = st.ledger) := by
  have hwho : ¬who = c.into_account_id addr := fun hh => hne hh.symm
  constructor
  · intro hex hfail
    have hmig : migrate_shadow_balance c st.ledger who addr =
        .ok { st.ledger with
              balance := fun a =>
                if a = c.into_account_id addr then
                  st.ledger.balance (c.into_account_id addr) -
                    st.ledger.balance (c.into_account_id addr)
                else if a = who then
                  st.ledger.balance who +
                    st.ledger.balance (c.into_account_id addr)
                else st.ledger.balance a } := by
      unfold migrate_shadow_balance Ledger.transfer
      simp [hex, hfail, hne]
    refine ⟨{ Accounts := insertA st.Accounts addr who,
              EvmAddresses := insertA st.EvmAddresses who addr,
              ledger := { st.ledger with
                balance := fun a =>
                  if a = c.into_account_id addr then
                    st.ledger.balance (c.into_account_id addr) -
                      st.ledger.balance (c.into_account_id addr)
                  else if a = who then
                    st.ledger.balance who +
                      st.ledger.balance (c.into_account_id addr)
                  else st.ledger.balance a },
              events := st.events ++ [Event.ClaimAccount who addr] },
            ?_, ?_, ?_⟩
    · unfold claim_account
      simp [h1, h2, h3, hmig]
    · simp [hwho]
    · simp
  · intro hex
    have hmig : migrate_shadow_balance c st.ledger who addr =
        .ok st.ledger := by
      unfold migrate_shadow_balance
      simp [hex]
    refine ⟨{ Accounts := insertA st.Accounts addr who,
              EvmAddresses := insertA st.EvmAddresses who addr,
              ledger := st.ledger,
              events := st.events ++ [Event.ClaimAccount who addr] },
            ?_, rfl⟩
    unfold claim_account
    simp [h1, h2, h3, hmig]

/-- Witness for C5: a shadow account holding 100 is drained into the
claimer; with no shadow account the ledger is untouched. -/
theorem claim_account_balance_migration_witness :
    (∃ st', claim_account wCtx wState 1 wAddr [0] = .ok st' ∧
       st'.ledger.balance 1 =
         wState.ledger.balance 1 +
           wState.ledger.balance (wCtx.into_account_id wAddr) ∧
       st'.ledger.balance (wCtx.into_account_id wAddr) = 0) ∧
    (∃ st', claim_account wCtx wStateNone 1 wAddr [0] = .ok st' ∧
       st'.ledger = wStateNone.ledger) :=
  ⟨(claim_account_balance_migration wCtx wState 1 wAddr [0] (by decide)
      (by decide) (by decide) (by decide)).1 (by decide) (by decide),
   (claim_account_balance_migration wCtx wStateNone 1 wAddr [0] (by decide)
      (by decide) (by decide) (by decide)).2 (by decide)⟩

/-- The state produced when account `2` — which is itself the shadow
identifier of `wAddr` under `wCtx` — successfully claims `wAddr` from
`wState`: the self-transfer is a no-op, so the ledger is unchanged. -/
def wAfterSelf : PalletState :=
  { Accounts := [(wAddr, 2)], EvmAddresses := [(2, wAddr)],
    ledger := wLedger, events := [Event.ClaimAccount 2 wAddr] }

/-- Counterexample to C5 as frozen: when the claiming identity is itself
the shadow identifier of the claimed address (`into_account_id wAddr = 2`),
an account exists under the shadow identifier holding balance `100`, the
claim succeeds — yet afterwards the balance of the claimer is still `100`,
not increased by `100`, and the shadow account still holds that balance. -/
theorem claim_account_balance_migration_counterexample :
    wCtx.into_account_id wAddr = 2 ∧
    wState.ledger.account_exists 2 = true ∧
    wState.ledger.balance 2 = 100 ∧
    claim_account wCtx wState 2 wAddr [0] = .ok wAfterSelf ∧
    wAfterSelf.ledger.balance (wCtx.into_account_id wAddr) = 100 ∧
    ¬wAfterSelf.ledger.balance 2 =
        wState.ledger.balance 2 +
          wState.ledger.balance (wCtx.into_account_id wAddr) := by
  refine ⟨rfl, rfl, rfl, rfl, rfl, ?_⟩
  decide

/-- C7: a successful claim appends exactly one `ClaimAccount` event
carrying `(who, addr)` to the event log, and in the same committed state
both mapping entries are present; a failed claim leaves the event log
unchanged. -/
theorem claim_account_event_emission (c : Ctx) (st : PalletState)
    (who : AccountId) (addr : EvmAddress) (sig : Bytes) :
    (∀ st', claim_account c st who addr sig = .ok st' →
      st'.events = st.events ++ [Event.ClaimAccount who addr] ∧
      lookupA st'.Accounts addr = some who ∧
      lookupA st'.EvmAddresses who = some addr) ∧
    (∀ e, claim_account c st who addr sig = .error e →
      (runClaim c st who addr sig).1.events = st.events) := by
  constructor
  · intro st' h
    obtain ⟨h1, h2, h3, l, hm, rfl⟩ := claim_account_ok_elim h
    exact ⟨rfl, by simp [lookupA_insertA], by simp [lookupA_insertA]⟩
  · intro e h
    simp [runClaim, h]

/-- Witness for C7: a concrete successful claim and a concrete rejected
claim. -/
theorem claim_account_event_emission_witness :
    (wAfter.events = wStateNone.events ++ [Event.ClaimAccount 1 wAddr] ∧
     lookupA wAfter.Accounts wAddr = some 1 ∧
     lookupA wAfter.EvmAddresses 1 = some wAddr) ∧
    (runClaim wCtx wStateMapped 1 wAddr [0]).1.events =
      wStateMapped.events :=
  ⟨(claim_account_event_emission wCtx wStateNone 1 wAddr [0]).1 wAfter
      (by rfl),
   (claim_account_event_emission wCtx wStateMapped 1 wAddr [0]).2
      .AccountIdHasMapped (by rfl)⟩

/-- C8: the lifecycle hook removes exactly the pair of entries when the
dying identity has a reverse entry, and is an identity (no failure, no
change) when it has none. -/
theorem on_killed_account_removes_pair (st : PalletState)
    (who : AccountId) :
    (∀ addr, lookupA st.EvmAddresses who = some addr →
      on_killed_account st who =
        { st with Accounts := removeA st.Accounts addr,
                  EvmAddresses := removeA st.EvmAddresses who } ∧
      lookupA (on_killed_account st who).Accounts addr = none ∧
      lookupA (on_killed_account st who).EvmAddresses who = none) ∧
    (lookupA st.EvmAddresses who = none →
      on_killed_account st who = st) := by
  constructor
  · intro addr h
    refine ⟨?_, ?_, ?_⟩ <;>
      simp [on_killed_account, h, lookupA_removeA]
  · intro h
    simp [on_killed_account, h]

/-- Witness for C8: killing a mapped identity removes both entries;
killing an unmapped identity changes nothing. -/
theorem on_killed_account_removes_pair_witness :
    (on_killed_account wStateMapped 1 =
      { wStateMapped with
        Accounts := removeA wStateMapped.Accounts wAddr,
        EvmAddresses := removeA wStateMapped.EvmAddresses 1 } ∧
     lookupA (on_killed_account wStateMapped 1).Accounts wAddr = none ∧
     lookupA (on_killed_account wStateMapped 1).EvmAddresses 1 = none) ∧
    on_killed_account wState 2 = wState :=
  ⟨(on_killed_account_removes_pair wStateMapped 1).1 wAddr (by decide),
   (on_killed_account_removes_pair wState 2).2 (by decide)⟩

/-- C9: `get_evm_address` returns the mapped address exactly when a
reverse entry exists and `none` otherwise — no fallback address is ever
synthesized for an unmapped identity. -/
theorem get_evm_address_no_fallback (st : PalletState)
    (account_id : AccountId) :
    (∀ addr, lookupA st.EvmAddresses account_id = some addr →
      get_evm_address st account_id = some addr) ∧
    (lookupA st.EvmAddresses account_id = none →
      get_evm_address st account_id = none) :=
  ⟨fun _ h => h, fun h => h⟩

/-- Witness for C9: a mapped and an unmapped identity. -/
theorem get_evm_address_no_fallback_witness :
    get_evm_address wStateMapped 1 = some wAddr ∧
    get_evm_address wStateMapped 2 = none :=
  ⟨(get_evm_address_no_fallback wStateMapped 1).1 wAddr (by decide),
   (get_evm_address_no_fallback wStateMapped 2).2 (by decide)⟩

/-- C10: a successful claim inserts exactly the two entries for `addr`
and `who`; every forward entry under a different address and every
reverse entry under a different identity is unchanged. -/
theorem claim_account_frame (c : Ctx) (st : PalletState) (who : AccountId)
    (addr : EvmAddress) (sig : Bytes) (st' : PalletState)
    (h : claim_account c st who addr sig = .ok st') :
    lookupA st'.Accounts addr = some who ∧
    lookupA st'.EvmAddresses who = some addr ∧
    (∀ a, a ≠ addr → lookupA st'.Accounts a = lookupA st.Accounts a) ∧
    (∀ i, i ≠ who → lookupA st'.EvmAddresses i = lookupA st.EvmAddresses i) := by
  obtain ⟨h1, h2, h3, l, hm, rfl⟩ := claim_account_ok_elim h
  refine ⟨by simp [lookupA_insertA], by simp [lookupA_insertA], ?_, ?_⟩
  · intro a ha
    simp [lookupA_insertA, Ne.symm ha]
  · intro i hi
    simp [lookupA_insertA, Ne.symm hi]

/-- Witness for C10: the concrete successful claim from the empty store,
checked at the inserted keys and at two untouched keys. -/
theorem claim_account_frame_witness :
    lookupA wAfter.Accounts wAddr = some 1 ∧
    lookupA wAfter.EvmAddresses 1 = some wAddr ∧
    lookupA wAfter.Accounts wAddr2 = lookupA wStateNone.Accounts wAddr2 ∧
    lookupA wAfter.EvmAddresses 2 = lookupA wStateNone.EvmAddresses 2 := by
  have h := claim_account_frame wCtx wStateNone 1 wAddr [0] wAfter (by rfl)
  exact ⟨h.1, h.2.1, h.2.2.1 wAddr2 (by decide), h.2.2.2 2 (by decide)⟩

/-! ### Reachability and the bijectivity invariant -/

/-- States reachable from an empty mapping store by successful
`claim_account` calls, `on_killed_account` invocations, and arbitrary
external changes to the ledger and event log (failed claims leave the
state unchanged under `#[transactional]`, so they induce no step). -/
inductive Reachable (c : Ctx) : PalletState → Prop where
  | init (l : Ledger) (ev : List Event) :
      Reachable c { Accounts := [], EvmAddresses := [], ledger := l,
                    events := ev }
  | claim {st st' : PalletState} (who : AccountId) (addr : EvmAddress)
      (sig : Bytes) :
      Reachable c st → claim_account c st who addr sig = .ok st' →
      Reachable c st'
  | kill {st : PalletState} (who : AccountId) :
      Reachable c st → Reachable c (on_killed_account st who)
  | hostChange {st : PalletState} (l : Ledger) (ev : List Event) :
      Reachable c st → Reachable c { st with ledger := l, events := ev }

/-- C6: in every reachable state the two maps are inverse to each other:
`(addr, who)` is in the forward map exactly when `(who, addr)` is in the
reverse map. -/
theorem reachable_bijectivity (c : Ctx) (st : PalletState)
    (h : Reachable c st) :
    ∀ addr who, lookupA st.Accounts addr = some who ↔
      lookupA st.EvmAddresses who = some addr := by
  induction h with
  | init l ev =>
    intro addr who
    simp [lookupA]
  | claim who addr sig hr hok ih =>
    obtain ⟨h1, h2, h3, l, hm, rfl⟩ := claim_account_ok_elim hok
    intro a i
    simp only [lookupA_insertA]
    by_cases ha : addr = a
    · subst ha
      by_cases hi : who = i
      · subst hi
        simp
      · simp only [if_pos rfl, if_neg hi]
        constructor
        · intro hcontra
          exact absurd (Option.some.inj hcontra) (fun hh => hi hh)
        · intro hcontra
          have := (ih addr i).mpr hcontra
          rw [h2] at this
          cases this
    · by_cases hi : who = i
      · subst hi
        simp only [if_neg ha, if_pos rfl]
        constructor
        · intro hcontra
          have := (ih a who).mp hcontra
          rw [h1] at this
          cases this
        · intro hcontra
          exact absurd (Option.some.inj hcontra) (fun hh => ha hh)
      · simp only [if_neg ha, if_neg hi]
        exact ih a i
  | kill who hr ih =>
    intro a i
    unfold on_killed_account
    cases hlk : lookupA _ who with
    | none => exact ih a i
    | some evm_addr =>
      simp only [lookupA_removeA]
      by_cases ha : a = evm_addr
      · subst ha
        by_cases hi : i = who
        · subst hi
          simp
        · simp only [if_pos rfl, if_neg hi]
          constructor
          · intro hcontra
            cases hcontra
          · intro hcontra
            have h1 := (ih a i).mpr hcontra
            have h2 := (ih a who).mpr hlk
            rw [h1] at h2
            exact absurd (Option.some.inj h2) hi
      · by_cases hi : i = who
        · subst hi
          simp only [if_neg ha, if_pos rfl]
          constructor
          · intro hcontra
            have h1 := (ih a i).mp hcontra
            rw [hlk] at h1
            exact absurd (Option.some.inj h1).symm ha
          · intro hcontra
            cases hcontra
        · simp only [if_neg ha, if_neg hi]
          exact ih a i
  | hostChange l ev hr ih =>
    exact ih

/-- Witness for C6: the invariant, instantiated in the state reached by
one concrete successful claim followed by an external ledger change. -/
theorem reachable_bijectivity_witness :
    lookupA wAfter.Accounts wAddr = some 1 ↔
      lookupA wAfter.EvmAddresses 1 = some wAddr :=
  reachable_bijectivity wCtx wAfter
    (Reachable.claim 1 wAddr [0] (Reachable.init wLedgerNone []) (by rfl))
    wAddr 1

end EvmAccounts
